import Mathlib

/-!
# Overtime-Cards: verification of the card-game engine

Shallow embedding of the multiplayer card-game engine of the Overtime-Cards
repository (`backend/games/cards/models.py` plus the variant modules and the
snapshot-restore block of `backend/main.py`), together with theorems settling
the specification claims about it.

Modelling conventions:
* Python lists become Lean `List`s; `list.pop()` removes the LAST element.
* Python dicts keyed by player id (insertion ordered) become association
  lists (`List Player`, `List (String × α)`) preserving insertion order.
* `random.shuffle` is a uniform random permutation; functions that construct
  a fresh shuffled deck take the already-shuffled deck as an explicit
  argument (any permutation of the standard 52-card deck is a possible
  outcome).  Concrete theorems instantiate it with `standardDeck`, the
  identity-permutation outcome.
* A Python method that mutates `self` and may raise becomes a function
  returning `Except String α × State`: the returned state is the object
  state after the call, whether it raised (carrying any mutations made
  before the raise, exactly as in Python) or returned normally.
* The `last_action` bookkeeping dictionaries (pure frontend logging, not
  referenced by any claim) and the wall-clock timestamp fields of the Snap
  variant are not modelled.
-/

deriving instance DecidableEq for Except

/-- Python `Suit` enum of `models.py`. -/
inductive Suit where
  | hearts | diamonds | clubs | spades
deriving DecidableEq

/-- Python `Rank` enum of `models.py` (declaration order `ACE, TWO, …, KING`). -/
inductive Rank where
  | ace | two | three | four | five | six | seven | eight | nine | ten
  | jack | queen | king
deriving DecidableEq

/-- Python `list(Suit)`: iteration order of the `Suit` enum. -/
def Suit.all : List Suit := [.hearts, .diamonds, .clubs, .spades]

/-- Python `list(Rank)`: iteration order of the `Rank` enum. -/
def Rank.all : List Rank :=
  [.ace, .two, .three, .four, .five, .six, .seven, .eight, .nine, .ten,
   .jack, .queen, .king]

/-- Python `Suit.value`: the string value of each `Suit` member. -/
def Suit.str : Suit → String
  | .hearts => "hearts"
  | .diamonds => "diamonds"
  | .clubs => "clubs"
  | .spades => "spades"

/-- Python `Rank.value`: the string value of each `Rank` member. -/
def Rank.str : Rank → String
  | .ace => "A" | .two => "2" | .three => "3" | .four => "4" | .five => "5"
  | .six => "6" | .seven => "7" | .eight => "8" | .nine => "9" | .ten => "10"
  | .jack => "J" | .queen => "Q" | .king => "K"

/-- Python `list(Rank).index(r)`: position of a rank in declaration order. -/
def Rank.index : Rank → Nat
  | .ace => 0 | .two => 1 | .three => 2 | .four => 3 | .five => 4
  | .six => 5 | .seven => 6 | .eight => 7 | .nine => 8 | .ten => 9
  | .jack => 10 | .queen => 11 | .king => 12

/-- Python `Card` dataclass: a rank and a suit. -/
structure Card where
  rank : Rank
  suit : Suit
deriving DecidableEq

/-- Python `Card.value`: ace counts 11, face cards 10, the rest their number. -/
def Card.value (c : Card) : Nat :=
  match c.rank with
  | .ace => 11
  | .jack => 10 | .queen => 10 | .king => 10
  | .two => 2 | .three => 3 | .four => 4 | .five => 5 | .six => 6
  | .seven => 7 | .eight => 8 | .nine => 9 | .ten => 10

/-- Python `Deck.create_deck` before shuffling: `for suit in Suit: for rank in Rank:
append Card(rank, suit)` — 52 cards in suit-major declaration order.  A
shuffled fresh deck is some permutation of this list; `standardDeck` itself
is the identity-permutation outcome used in concrete theorems. -/
def standardDeck : List Card :=
  (Suit.all.map (fun s => Rank.all.map (fun r => Card.mk r s))).flatten

/-- Python `Deck.draw`: `self.cards.pop() if self.cards else None` — removes the
last element of the list. -/
def deckDraw (d : List Card) : Option Card × List Card :=
  match d.getLast? with
  | none => (none, d)
  | some c => (some c, d.dropLast)

/-- Python `Deck.draw_multiple(count)`: raises `Not enough cards to deal` when
`count` exceeds the remaining cards, otherwise pops `count` cards off the
end (drawn in last-first order, as the Python loop produces). -/
def drawMultiple (count : Nat) (d : List Card) :
    Except String (List Card × List Card) :=
  if count > d.length then .error "Not enough cards to deal"
  else .ok (d.reverse.take count, d.take (d.length - count))

/-- Python `Player` dataclass. -/
structure Player where
  id : String
  name : String
  hand : List Card
  score : Int := 0
  is_ready : Bool := false
  is_host : Bool := false
deriving DecidableEq

/-- One pass of `Deck.deal`'s inner loop: each player in order draws one
card off the end of the deck and appends it to their hand.  (The Python
code raises inside the loop if the deck runs dry, but `deal` checks the
total count up front, so that branch is unreachable; here an empty deck
simply leaves the remaining players untouched.) -/
def dealPass : List Player → List Card → List Player × List Card
  | [], d => ([], d)
  | p :: ps, d =>
    match d.getLast? with
    | none =>
      let r := dealPass ps d
      (p :: r.1, r.2)
    | some c =>
      let r := dealPass ps d.dropLast
      ({ p with hand := p.hand ++ [c] } :: r.1, r.2)

/-- Python `Deck.deal`'s outer loop: `cards_per_player` passes. -/
def dealRounds : Nat → List Player → List Card → List Player × List Card
  | 0, ps, d => (ps, d)
  | k + 1, ps, d =>
    let r := dealPass ps d
    dealRounds k r.1 r.2

/-- Python `Deck.deal(players, cards_per_player)`: raises when the total needed
exceeds the remaining cards, otherwise deals round-robin. -/
def deal (ps : List Player) (cardsPerPlayer : Nat) (d : List Card) :
    Except String (List Player × List Card) :=
  if ps.length * cardsPerPlayer > d.length then
    .error "Not enough cards to deal"
  else .ok (dealRounds cardsPerPlayer ps d)

/-- Python `GameState` enum. -/
inductive GameState where
  | waiting | starting | playing | round_end | game_end
deriving DecidableEq

/-- String value of a `GameState` member. -/
def GameState.str : GameState → String
  | .waiting => "waiting"
  | .starting => "starting"
  | .playing => "playing"
  | .round_end => "round_end"
  | .game_end => "game_end"

/-- Python `BaseGame` aggregate state (`models.py`).  `players` is the insertion
ordered id→Player dict, flattened to a list. -/
structure BaseGame where
  room_code : String
  players : List Player
  deck : List Card
  state : GameState
  current_player_idx : Nat
  direction : Int
  max_selectable_cards : Nat
deriving DecidableEq

/-- Python `BaseGame.__init__`: fresh game in WAITING with a newly created,
shuffled 52-card deck (`initDeck` is the shuffle outcome). -/
def BaseGame.new (room : String) (initDeck : List Card) : BaseGame :=
  { room_code := room, players := [], deck := initDeck, state := .waiting,
    current_player_idx := 0, direction := 1, max_selectable_cards := 0 }

/-- Python `self.players.get(player_id)`: dict lookup. -/
def BaseGame.getPlayer (g : BaseGame) (pid : String) : Option Player :=
  g.players.find? (fun p => p.id = pid)

/-- Python `BaseGame.add_player`: dict assignment — replaces in place when the id
is already present, otherwise appends at the end of insertion order. -/
def BaseGame.add_player (g : BaseGame) (pid userName : String)
    (host : Bool) : BaseGame :=
  let p : Player := { id := pid, name := userName, hand := [], is_host := host }
  { g with players :=
      if g.players.any (fun q => q.id = pid) then
        g.players.map (fun q => if q.id = pid then p else q)
      else g.players ++ [p] }

/-- Python `BaseGame.remove_player`: `del self.players[player_id]` guarded by a
membership test. -/
def BaseGame.remove_player (g : BaseGame) (pid : String) : BaseGame :=
  { g with players := g.players.filter (fun p => p.id ≠ pid) }

/-- Python `BaseGame.next_turn`: `current_player_idx = (current_player_idx +
direction) % len(players)`.  With an empty roster Python raises
`ZeroDivisionError` before assigning, leaving the index unchanged; the
guard reproduces that resulting state. -/
def BaseGame.next_turn (g : BaseGame) : BaseGame :=
  if g.players.length = 0 then g
  else
    { g with current_player_idx :=
        (((g.current_player_idx : Int) + g.direction).emod
          (g.players.length : Int)).toNat }

/-- Python `BaseGame.current_player`: `players[idx] if players else None`.  The
error case is Python's `IndexError` when the roster is non-empty but the
index is out of range. -/
def BaseGame.currentPlayerE (g : BaseGame) : Except String (Option Player) :=
  if g.players.isEmpty then .ok none
  else
    match g.players.get? g.current_player_idx with
    | some p => .ok (some p)
    | none => .error "list index out of range"

/-- Python `BaseGame.start_game`, parameterized by the freshly shuffled deck the
reset produces and by the variant's `_calculate_min_cards_needed()` value.
Failures inside the `try` set the state back to WAITING and re-raise, but
keep any mutations already made (in particular the replaced deck). -/
def BaseGame.start_game (g : BaseGame) (freshDeck : List Card)
    (minCards : Nat) : Except String Unit × BaseGame :=
  if g.players.length < 2 then
    (.error "Need at least 2 players to start game", g)
  else
    let g1 : BaseGame := { g with state := .starting, deck := freshDeck }
    if freshDeck.length ≠ 52 then
      (.error "Failed to start game: Invalid deck size",
       { g1 with state := .waiting })
    else if freshDeck.length < minCards then
      (.error "Failed to start game: Not enough cards in deck",
       { g1 with state := .waiting })
    else
      let per := minCards / g1.players.length
      match deal g1.players per freshDeck with
      | .error e => (.error ("Failed to start game: " ++ e),
          { g1 with state := .waiting })
      | .ok r =>
        (.ok (),
         { g1 with players := r.1, deck := r.2, current_player_idx := 0,
                   state := .playing })

/-- Default `BaseGame._calculate_min_cards_needed`: 7 cards per player. -/
def baseMinCards (n : Nat) : Nat := n * 7

/-- Python `Card.to_dict()` plus the optional `show_back` flag that
`BaseGame.get_game_state` adds to foreign-view copies (`none` = key not
present in the dictionary). -/
structure CardDict where
  rank : String
  suit : String
  image_front : String
  image_back : String
  show_back : Option Bool
deriving DecidableEq

/-- Python `Card.to_dict`: rank/suit string values and the two image paths. -/
def Card.toDict (c : Card) : CardDict :=
  { rank := c.rank.str, suit := c.suit.str,
    image_front := "cards/" ++ c.suit.str ++ "_" ++ c.rank.str ++ ".png",
    image_back := "cards/back_dark.png", show_back := none }

/-- Python `Player.to_dict()` output. -/
structure PlayerView where
  id : String
  name : String
  hand_size : Nat
  score : Int
  is_ready : Bool
  is_host : Bool
  hand : List CardDict
deriving DecidableEq

/-- Python `Player.to_dict(hide_hand)`: the hand key is always present; card
details are included only when the hand is not hidden. -/
def Player.to_dict (p : Player) (hideHand : Bool) : PlayerView :=
  { id := p.id, name := p.name, hand_size := p.hand.length, score := p.score,
    is_ready := p.is_ready, is_host := p.is_host,
    hand := if hideHand then [] else p.hand.map Card.toDict }

/-- The document produced by `BaseGame.get_game_state` (success and
fallback shapes share these keys; `max_selectable_cards` is present only in
the success shape and `error` only in the fallback). -/
structure GameView where
  room_code : String
  state : String
  host_id : Option String
  players : List (String × PlayerView)
  current_player : Option String
  deck_cards_remaining : Nat
  direction : Int
  current_player_idx : Nat
  max_selectable_cards : Option Nat
  error : Option String
deriving DecidableEq

/-- The `try` body of `BaseGame.get_game_state`.  Every step is total
except reading `self.current_player`, which raises `IndexError` when the
roster is non-empty and `current_player_idx` is out of range. -/
def BaseGame.viewBody (g : BaseGame) (forPlayer : Option String) :
    Except String GameView :=
  let host := g.players.find? (fun p => p.is_host)
  let playersDict := g.players.map (fun p =>
    let pv := p.to_dict false
    let pv :=
      match forPlayer with
      | none => pv
      | some v =>
        { pv with hand := pv.hand.map (fun cd =>
            { cd with show_back := some (decide (p.id ≠ v)) }) }
    (p.id, pv))
  match g.currentPlayerE with
  | .error e => .error e
  | .ok cur =>
    .ok
      { room_code := g.room_code, state := g.state.str,
        host_id := host.map (fun p => p.id), players := playersDict,
        current_player := cur.map (fun p => p.id),
        deck_cards_remaining := g.deck.length, direction := g.direction,
        current_player_idx := g.current_player_idx,
        max_selectable_cards := some g.max_selectable_cards, error := none }

/-- The `except` branch of `BaseGame.get_game_state`: minimal valid state
carrying the error. -/
def BaseGame.fallbackView (g : BaseGame) (e : String) : GameView :=
  { room_code := g.room_code, state := GameState.waiting.str, host_id := none,
    players := [], current_player := none, deck_cards_remaining := 0,
    direction := g.direction, current_player_idx := 0,
    max_selectable_cards := none, error := some e }

/-- Python `BaseGame.get_game_state`: the try body with the local fallback. -/
def BaseGame.get_game_state (g : BaseGame) (forPlayer : Option String) :
    GameView :=
  match g.viewBody forPlayer with
  | .ok v => v
  | .error e => g.fallbackView e

/-! ## Scat (knock/31) variant — `scat.py` -/

/-- The suits of a hand in first-occurrence order: the key order of the
`suits` dict that `ScatGame._calculate_hand_value` builds. -/
def handSuits (hand : List Card) : List Suit :=
  hand.foldl (fun acc c => if acc.contains c.suit then acc else acc ++ [c.suit]) []

/-- Sum of `Card.value` over a list of cards. -/
def sumValues (cards : List Card) : Nat := (cards.map Card.value).sum

/-- Python `ScatGame._calculate_hand_value`: group the hand by suit (dict in
first-occurrence order, each group in hand order), take the running
maximum of the per-suit sums starting from 0, and cap at 31. -/
def ScatGame.calculate_hand_value (hand : List Card) : Nat :=
  let groups := (handSuits hand).map (fun s => hand.filter (fun c => c.suit = s))
  let maxValue := groups.foldl (fun m grp => max m (sumValues grp)) 0
  min maxValue 31

/-- The hand valuation as the specification words it, for the refinement
comparison: best single-suit sum (face cards 10, aces 11) over all four
suits, capped at 31. -/
def specHandValue (hand : List Card) : Nat :=
  min (Suit.all.foldl (fun m s => max m (sumValues (hand.filter (fun c => c.suit = s)))) 0) 31

/-! ## Spoons variant — `spoons.py` -/

/-- Python `SpoonsGame` state.  `grabbed_spoons` is the id-keyed dict of players
who already grabbed, flattened to the list of its keys. -/
structure SpoonsGame where
  base : BaseGame
  spoons : Nat
  total_spoons : Nat
  grabbed_spoons : List String
  cards_per_hand : Nat
deriving DecidableEq

/-- Python `SpoonsGame.__init__`. -/
def SpoonsGame.new (room : String) (initDeck : List Card) : SpoonsGame :=
  { base := BaseGame.new room initDeck, spoons := 0, total_spoons := 0,
    grabbed_spoons := [], cards_per_hand := 4 }

/-- Python `SpoonsGame._calculate_min_cards_needed`: 4 cards per player. -/
def spoonsMinCards (n : Nat) : Nat := n * 4

/-- Python `SpoonsGame.start_game`: at least 3 players, sets the spoon counters,
then runs the base start. -/
def SpoonsGame.start_game (g : SpoonsGame) (freshDeck : List Card) :
    Except String Unit × SpoonsGame :=
  if g.base.players.length < 3 then
    (.error "Spoons requires at least 3 players", g)
  else
    let g1 := { g with total_spoons := g.base.players.length - 1,
                       spoons := g.base.players.length - 1,
                       grabbed_spoons := [] }
    let r := g1.base.start_game freshDeck (spoonsMinCards g1.base.players.length)
    (r.1, { g1 with base := r.2 })

/-- Replace the stored copy of a player (Python mutates the shared object
in place, so the dict entry is updated too). -/
def BaseGame.setPlayer (g : BaseGame) (p : Player) : BaseGame :=
  { g with players := g.players.map (fun q => if q.id = p.id then p else q) }

/-- Python `SpoonsGame.play_turn`.  After all validations pass, the card is popped
from the acting player's hand, and then the call `self.get_next_player()`
is evaluated: neither `SpoonsGame` nor `BaseGame` defines any
`get_next_player` method, so Python raises `AttributeError` at that point,
after the hand mutation, and the popped card is referenced only by the
local variable and is lost. -/
def SpoonsGame.play_turn (g : SpoonsGame) (playerId : String)
    (cardIndex : Int) : Except String Unit × SpoonsGame :=
  if g.base.state ≠ .playing then
    (.error "Game is not in playing state", g)
  else
    match g.base.getPlayer playerId with
    | none => (.error "Player not found", g)
    | some player =>
      match g.base.players.get? g.base.current_player_idx with
      | none => (.error "list index out of range", g)
      | some cur =>
        if player.id ≠ cur.id then (.error "Not your turn", g)
        else if cardIndex < 0 ∨ (player.hand.length : Int) ≤ cardIndex then
          (.error "Invalid card index", g)
        else
          let hand' := player.hand.eraseIdx cardIndex.toNat
          let g' := { g with base := g.base.setPlayer { player with hand := hand' } }
          (.error
            "AttributeError: 'SpoonsGame' object has no attribute 'get_next_player'",
           g')

/-! ## Snap variant — `snap.py` (timestamp fields omitted) -/

/-- Python `SnapGame` state. -/
structure SnapGame where
  base : BaseGame
  center_pile : List Card
  cards_per_player : Nat
deriving DecidableEq

/-- Python `SnapGame.__init__`. -/
def SnapGame.new (room : String) (initDeck : List Card) : SnapGame :=
  { base := BaseGame.new room initDeck, center_pile := [], cards_per_player := 4 }

/-- The hand-replacing loop of `SnapGame.deal_initial_cards`: draws
`cards_per_player` off the deck for each player in order and REPLACES the
player's hand with the drawn cards. -/
def snapDealLoop (c : Nat) : List Player → List Card → List Player × List Card
  | [], d => ([], d)
  | p :: ps, d =>
    match drawMultiple c d with
    | .error _ =>
      -- unreachable under the up-front count check of deal_initial_cards
      let r := snapDealLoop c ps d
      (p :: r.1, r.2)
    | .ok h =>
      let r := snapDealLoop c ps h.2
      ({ p with hand := h.1 } :: r.1, r.2)

/-- Python `SnapGame.deal_initial_cards`: checks the total needed against the
CURRENT deck (no reset), then replaces every hand with a fresh draw. -/
def SnapGame.deal_initial_cards (g : SnapGame) :
    Except String Unit × SnapGame :=
  if g.base.deck.length < g.base.players.length * g.cards_per_player then
    (.error "Failed to deal initial cards: Not enough cards to deal", g)
  else
    let r := snapDealLoop g.cards_per_player g.base.players g.base.deck
    (.ok (), { g with base := { g.base with players := r.1, deck := r.2 } })

/-- Python `SnapGame.start_game`: deal from the current deck (never resetting it,
never calling the base start), then set PLAYING and reset the turn index. -/
def SnapGame.start_game (g : SnapGame) : Except String Unit × SnapGame :=
  match g.deal_initial_cards with
  | (.error e, g') => (.error e, g')
  | (.ok _, g') =>
    (.ok (),
     { g' with base := { g'.base with state := .playing, current_player_idx := 0 } })

/-- Total cards in a Snap game: deck + all hands + center pile. -/
def SnapGame.totalCards (g : SnapGame) : Nat :=
  g.base.deck.length + (g.base.players.map (fun p => p.hand.length)).sum
    + g.center_pile.length

/-! ## Spades variant — `spades.py` -/

/-- Dict assignment `d[k] = v` on a string-keyed association list. -/
def assocSet {α : Type} (l : List (String × α)) (k : String) (v : α) :
    List (String × α) :=
  if l.any (fun e => e.1 = k) then
    l.map (fun e => if e.1 = k then (k, v) else e)
  else l ++ [(k, v)]

/-- Dict lookup `d[k]` / `d.get(k)`. -/
def assocGet {α : Type} (l : List (String × α)) (k : String) : Option α :=
  (l.find? (fun e => e.1 = k)).map (fun e => e.2)

/-- Python `SpadesGame` state. -/
structure SpadesGame where
  base : BaseGame
  current_trick : List (String × Card)
  tricks_won : List (String × Nat)
  bids : List (String × Int)
  scores : List (String × Int)
  bags : List (String × Nat)
  spades_broken : Bool
  target_score : Int
deriving DecidableEq

/-- Python `SpadesGame.__init__`. -/
def SpadesGame.new (room : String) (initDeck : List Card) : SpadesGame :=
  { base := BaseGame.new room initDeck, current_trick := [], tricks_won := [],
    bids := [], scores := [], bags := [], spades_broken := false,
    target_score := 500 }

/-- Python string `<`: lexicographic comparison by code point. -/
def strLtB : List Char → List Char → Bool
  | [], [] => false
  | [], _ :: _ => true
  | _ :: _, [] => false
  | a :: as, b :: bs => if a < b then true else if b < a then false else strLtB as bs

/-- Sort key order used by `SpadesGame.start_game`:
`(card.suit.value, list(Rank).index(card.rank))` ascending, comparing the
suit value strings lexicographically as Python's tuple comparison does. -/
def spadesHandLe (a b : Card) : Bool :=
  strLtB a.suit.str.data b.suit.str.data ∨
    (a.suit.str = b.suit.str ∧ a.rank.index ≤ b.rank.index)

/-- Insert a card into a list sorted by `spadesHandLe`. -/
def spadesInsert (c : Card) : List Card → List Card
  | [] => [c]
  | x :: xs => if spadesHandLe c x then c :: x :: xs else x :: spadesInsert c xs

/-- Python `sorted(hand, key=…)`: insertion sort by the Spades key (keys are
injective on cards, so any sorted arrangement equals Python's). -/
def spadesSortHand (l : List Card) : List Card := l.foldr spadesInsert []

/-- Python `SpadesGame.start_game`: exactly 4 players; per-player counters are
initialized (scores/bags only when absent), then the base start runs with
`len(players) * 13` minimum cards, then each hand is sorted. -/
def SpadesGame.start_game (g : SpadesGame) (freshDeck : List Card) :
    Except String Unit × SpadesGame :=
  if g.base.players.length ≠ 4 then
    (.error "Spades requires exactly 4 players", g)
  else
    let g1 : SpadesGame := { g with
      tricks_won := g.base.players.foldl (fun a p => assocSet a p.id 0) g.tricks_won,
      bids := g.base.players.foldl (fun a p => assocSet a p.id (-1)) g.bids }
    let g1 : SpadesGame := g.base.players.foldl (fun (h : SpadesGame) p =>
      if (assocGet h.scores p.id).isSome then h
      else { h with scores := assocSet h.scores p.id 0,
                    bags := assocSet h.bags p.id 0 }) g1
    match g1.base.start_game freshDeck (g1.base.players.length * 13) with
    | (.error e, b') => (.error e, { g1 with base := b' })
    | (.ok _, b') =>
      let b'' := { b' with players := b'.players.map (fun p =>
        { p with hand := spadesSortHand p.hand }) }
      (.ok (), { g1 with base := b'' })

/-- Python `SpadesGame.make_bid`: all raises are wrapped as
`Failed to make bid: …`; every validation precedes every mutation. -/
def SpadesGame.make_bid (g : SpadesGame) (playerId : String) (bid : Int) :
    Except String Unit × SpadesGame :=
  if g.base.state ≠ .starting then
    (.error "Failed to make bid: Not in bidding phase", g)
  else
    match g.base.getPlayer playerId with
    | none => (.error "Failed to make bid: Player not found", g)
    | some player =>
      match g.base.currentPlayerE with
      | .error e => (.error ("Failed to make bid: " ++ e), g)
      | .ok none => (.error "Failed to make bid: No current player set", g)
      | .ok (some cur) =>
        if player.id ≠ cur.id then
          (.error "Failed to make bid: Not your turn to bid", g)
        else if bid < 0 ∨ bid > 13 then
          (.error "Failed to make bid: Bid must be between 0 and 13", g)
        else
          let g1 := { g with bids := assocSet g.bids playerId bid }
          let g1 := { g1 with base := g1.base.next_turn }
          let g1 :=
            if g1.bids.all (fun e => 0 ≤ e.2) then
              { g1 with base := { g1.base with state := .playing } }
            else g1
          (.ok (), g1)

/-! ## Kings Corner variant — `kings_corner.py`

`KingsCornerGame` does not override `start_game`, so starting runs
`BaseGame.start_game` directly with `_calculate_min_cards_needed() =
players*7 + 4`.  The pile-seeding method `_initialize_game_state` exists in
the class but is never invoked anywhere in the repository, so `piles` and
`pile_types` stay as `__init__` leaves them. -/

/-- Python `KingsCornerGame` state. -/
structure KingsCornerGame where
  base : BaseGame
  piles : List (String × List Card)
  pile_types : List (String × String)
  cards_per_hand : Nat
deriving DecidableEq

/-- Python `KingsCornerGame.__init__`. -/
def KingsCornerGame.new (room : String) (initDeck : List Card) : KingsCornerGame :=
  { base := BaseGame.new room initDeck, piles := [], pile_types := [],
    cards_per_hand := 7 }

/-- Python `KingsCornerGame._calculate_min_cards_needed`: 7 per player plus 4 for
the foundation piles. -/
def kingsCornerMinCards (n : Nat) : Nat := n * 7 + 4

/-- Starting a Kings Corner game: the inherited `BaseGame.start_game` with
the Kings Corner minimum (no pile initialization is ever triggered). -/
def KingsCornerGame.start_game (g : KingsCornerGame) (freshDeck : List Card) :
    Except String Unit × KingsCornerGame :=
  let r := g.base.start_game freshDeck (kingsCornerMinCards g.base.players.length)
  (r.1, { g with base := r.2 })

/-! ## Go Fish variant — `go_fish.py` -/

/-- Python `GoFishGame` state. -/
structure GoFishGame where
  base : BaseGame
  sets : List (String × List (List Card))
  cards_per_hand : Nat
deriving DecidableEq

/-- Python `GoFishGame.__init__`. -/
def GoFishGame.new (room : String) (initDeck : List Card) : GoFishGame :=
  { base := BaseGame.new room initDeck, sets := [], cards_per_hand := 7 }

/-- Python `GoFishGame._calculate_min_cards_needed`: 7 per player for up to 3
players, else 5, plus one extra card per player for fishing. -/
def goFishMinCards (n : Nat) : Nat :=
  (if n ≤ 3 then 7 else 5) * n + n

/-- The view document of `GoFishGame.get_game_state`: the (possibly
patched) base view merged with the Go-Fish-specific keys. -/
structure GoFishView where
  base : GameView
  sets : List (String × List (List CardDict))
  scores : List (String × Nat)
  cards_in_deck : Nat
deriving DecidableEq

/-- Python `GoFishGame.get_game_state`: builds the base view and the Go-Fish
extras, then — when a viewer is given and that player exists — overwrites
`base_state['players'][viewer]['hand']` with the viewer's real hand.  That
subscript raises `KeyError` when the base view fell back to its minimal
shape (whose player map is empty); the method's own `except` clause
re-raises it as `ValueError("Failed to get game state: …")` instead of
returning a fallback view. -/
def GoFishGame.get_game_state (g : GoFishGame) (forPlayer : Option String) :
    Except String GoFishView :=
  let bs := g.base.get_game_state forPlayer
  let sets' := g.sets.map (fun e => (e.1, e.2.map (fun sc => sc.map Card.toDict)))
  let scores' := g.sets.map (fun e => (e.1, e.2.length))
  match forPlayer with
  | none =>
    .ok { base := bs, sets := sets', scores := scores',
          cards_in_deck := g.base.deck.length }
  | some v =>
    match g.base.getPlayer v with
    | none =>
      .ok { base := bs, sets := sets', scores := scores',
            cards_in_deck := g.base.deck.length }
    | some player =>
      if (bs.players.find? (fun q => q.1 = v)).isSome then
        .ok { base := { bs with players := bs.players.map (fun q =>
                if q.1 = v then (q.1, { q.2 with hand := player.hand.map Card.toDict })
                else q) },
              sets := sets', scores := scores',
              cards_in_deck := g.base.deck.length }
      else .error ("Failed to get game state: KeyError: " ++ v)

/-- Python `Enum.__eq__` against a plain string: a `Rank` member is never
equal to a string (`Rank.ACE == 'A'` is `False`), so every
`card.rank == rank` comparison in `GoFishGame.ask_for_cards` — whose
`rank` argument is the raw string out of the request JSON — is `False`. -/
def pyEnumEqStr (_ : Rank) (_ : String) : Bool := false

/-- The ranks of a hand in first-occurrence order (key order of the dict
built by `GoFishGame._check_for_sets`). -/
def handRanks (hand : List Card) : List Rank :=
  hand.foldl (fun a c => if a.contains c.rank then a else a ++ [c.rank]) []

/-- Python `GoFishGame._check_for_sets`: remove every exactly-four-of-a-kind group
from the player's hand, bump the score once per set, and extend
`self.sets[player.id]` (a `KeyError` if that key is absent — `sets` is only
populated by `deal_initial_cards`, which the restore path never calls). -/
def GoFishGame.check_for_sets (g : GoFishGame) (player : Player) :
    Except String (GoFishGame × Player × List (List Card)) :=
  let groups := (handRanks player.hand).map
    (fun rk => player.hand.filter (fun c => c.rank = rk))
  let newSets := groups.filter (fun grp => grp.length = 4)
  let hand' := newSets.foldl
    (fun h grp => h.filter (fun c => ¬ grp.contains c)) player.hand
  let player' := { player with hand := hand', score := player.score + newSets.length }
  let g' := { g with base := g.base.setPlayer player' }
  if newSets.isEmpty then .ok (g', player', newSets)
  else
    match assocGet g'.sets player.id with
    | none => .error ("KeyError: " ++ player.id)
    | some old =>
      .ok ({ g' with sets := assocSet g'.sets player.id (old ++ newSets) },
           player', newSets)

/-- Python `GoFishGame._check_game_end`: no cards left in any hand or the deck. -/
def GoFishGame.checkGameEnd (g : GoFishGame) : Bool :=
  (g.base.players.map (fun p => p.hand.length)).sum + g.base.deck.length = 0

/-- Python `if self._check_game_end(): self.state = GameState.GAME_END`. -/
def GoFishGame.applyGameEnd (g : GoFishGame) : GoFishGame :=
  if g.checkGameEnd then { g with base := { g.base with state := .game_end } }
  else g

/-- Python `list.remove(x)` — drop the first occurrence. -/
def listRemoveFirst (l : List Card) (x : Card) : List Card :=
  match l with
  | [] => []
  | c :: cs => if c = x then cs else c :: listRemoveFirst cs x

/-- Python `GoFishGame.ask_for_cards`.  All raises are wrapped as
`Failed to ask for cards: …`.  Because `rank` arrives as a plain string and
each `card.rank == rank` comparison is an enum-vs-string equality (always
`False`), `has_rank` and `matching_cards` are always empty and control
always reaches the first go-fish branch: draw one card (if any), append it
to the asker's hand and advance the turn unconditionally. -/
def GoFishGame.ask_for_cards (g : GoFishGame)
    (askerId targetId rankStr : String) : Except String Unit × GoFishGame :=
  if g.base.state ≠ .playing then
    (.error "Failed to ask for cards: Game is not in playing state", g)
  else
    match g.base.getPlayer askerId, g.base.getPlayer targetId with
    | none, _ => (.error "Failed to ask for cards: Player not found", g)
    | some _, none => (.error "Failed to ask for cards: Player not found", g)
    | some asker, some target =>
      match g.base.currentPlayerE with
      | .error e => (.error ("Failed to ask for cards: " ++ e), g)
      | .ok none =>
        (.error "Failed to ask for cards: 'NoneType' object has no attribute 'id'", g)
      | .ok (some cur) =>
        if asker.id ≠ cur.id then
          (.error "Failed to ask for cards: Not your turn", g)
        else if asker.id = target.id then
          (.error "Failed to ask for cards: Cannot ask yourself for cards", g)
        else if ¬ (asker.hand.any (fun c => pyEnumEqStr c.rank rankStr)) then
          -- `has_rank` is False: draw a card (go fish) and always advance
          match deckDraw g.base.deck with
          | (some c, deck') =>
            let g1 := { g with base :=
              { (g.base.setPlayer { asker with hand := asker.hand ++ [c] }) with
                deck := deck' } }
            let g2 := { g1 with base := g1.base.next_turn }
            match g2.get_game_state (some askerId) with
            | .ok _ => (.ok (), g2)
            | .error e => (.error ("Failed to ask for cards: " ++ e), g2)
          | (none, _) =>
            let g2 := { g with base := g.base.next_turn }
            match g2.get_game_state (some askerId) with
            | .ok _ => (.ok (), g2)
            | .error e => (.error ("Failed to ask for cards: " ++ e), g2)
        else
          -- dead code under enum-vs-string equality: the transfer branch
          let matching := target.hand.filter (fun c => pyEnumEqStr c.rank rankStr)
          if ¬ matching.isEmpty then
            let target' := { target with
              hand := matching.foldl listRemoveFirst target.hand }
            let asker' := { asker with hand := asker.hand ++ matching }
            let g1 := { g with base :=
              (g.base.setPlayer target').setPlayer asker' }
            match g1.check_for_sets asker' with
            | .error e => (.error ("Failed to ask for cards: " ++ e), g1)
            | .ok r =>
              let g2 := r.1.applyGameEnd
              match g2.get_game_state (some askerId) with
              | .ok _ => (.ok (), g2)
              | .error e => (.error ("Failed to ask for cards: " ++ e), g2)
          else
            match deckDraw g.base.deck with
            | (some c, deck') =>
              let g1 := { g with base :=
                { (g.base.setPlayer { asker with hand := asker.hand ++ [c] }) with
                  deck := deck' } }
              let g2 :=
                if pyEnumEqStr c.rank rankStr then g1
                else { g1 with base := g1.base.next_turn }
              let g2 := g2.applyGameEnd
              match g2.get_game_state (some askerId) with
              | .ok _ => (.ok (), g2)
              | .error e => (.error ("Failed to ask for cards: " ++ e), g2)
            | (none, _) =>
              let g2 := ({ g with base := g.base.next_turn } : GoFishGame).applyGameEnd
              match g2.get_game_state (some askerId) with
              | .ok _ => (.ok (), g2)
              | .error e => (.error ("Failed to ask for cards: " ++ e), g2)

/-! ## Snapshot restore — `main.py`, `game_action` restore block

The service reconstructs an ephemeral engine instance before each action:
it instantiates the variant class, adds every player from the room roster
(fresh `Player` objects with empty hands), forces the state to PLAYING,
restores the deck from the snapshot, and then runs the hand-restore loop of
`main.py` (the per-player re-deal on missing/empty/malformed hands, and the
whole-game re-initialization when any hand restore step failed).

A saved hand entry in the snapshot JSON is either not a card dictionary
(filtered out by the `isinstance`/key guards of the comprehension), a card
dictionary whose rank/suit strings are not valid enum values (so
`Card(Rank(...), Suit(...))` raises and the whole hand assignment is
abandoned), or a well-formed card. -/

/-- One entry of a saved hand list. -/
inductive SavedEntry where
  | notCardDict
  | badEnum
  | good (c : Card)
deriving DecidableEq

/-- The saved hand of one player in the snapshot. -/
inductive SavedHand where
  | absent
  | notList
  | entries (l : List SavedEntry)
deriving DecidableEq

/-- The entries surviving the comprehension's
`isinstance(card, dict) and 'rank' in card and 'suit' in card` filter. -/
def savedKept (l : List SavedEntry) : List SavedEntry :=
  l.filter (fun e => e matches .badEnum | .good _)

/-- Whether converting the kept entries raises (some entry has an invalid
enum value). -/
def savedHasBad (l : List SavedEntry) : Bool :=
  (savedKept l).any (fun e => e matches .badEnum)

/-- The cards obtained when the conversion succeeds. -/
def savedGood (l : List SavedEntry) : List Card :=
  l.filterMap (fun e => match e with | .good c => some c | _ => none)

/-- One player record of the roster/snapshot input to the restore. -/
structure RestoreIn where
  id : String
  name : String
  host : Bool
  saved : SavedHand
deriving DecidableEq

/-- The body of the restore loop for one player (`main.py` lines
1283–1314): first rebuild the hand from the saved entries (left empty on a
conversion error, which also clears the all-hands-valid flag); then, if the
hand is still empty, reset the deck when it is empty and re-deal
`cards_per_hand` cards — a failing `draw_multiple` is caught and clears the
flag, leaving the hand empty and the deck unchanged.  Returns the player's
hand, the deck after this step, and this step's validity flag. -/
def restoreStep (saved : SavedHand) (deck freshDeck : List Card) (c : Nat) :
    List Card × List Card × Bool :=
  let handOk :=
    match saved with
    | .absent => ([], true)
    | .notList => ([], true)
    | .entries l => if savedHasBad l then ([], false) else (savedGood l, true)
  if handOk.1.isEmpty then
    let deck1 := if deck.isEmpty then freshDeck else deck
    match drawMultiple c deck1 with
    | .ok r => (r.1, r.2, handOk.2)
    | .error _ => ([], deck1, false)
  else (handOk.1, deck, handOk.2)

/-- The hand-restore loop over the whole roster, threading the deck and the
`all_hands_valid` flag. -/
def restoreLoop (c : Nat) (freshDeck : List Card) :
    List RestoreIn → List Card → List Player × List Card × Bool
  | [], deck => ([], deck, true)
  | r :: rs, deck =>
    let s := restoreStep r.saved deck freshDeck c
    let rest := restoreLoop c freshDeck rs s.2.1
    ({ id := r.id, name := r.name, hand := s.1, is_host := r.host } :: rest.1,
     rest.2.1, s.2.2 && rest.2.2)

/-- The ephemeral engine state the restore block works on: roster added
with empty hands (then filled by the hand-restore loop), state forced to
PLAYING, deck as given. -/
def restoreBase (room : String) (ps : List Player) (deck : List Card) :
    BaseGame :=
  { room_code := room, players := ps, deck := deck, state := .playing,
    current_player_idx := 0, direction := 1, max_selectable_cards := 0 }

/-- The whole restore block: players are added with empty hands, the state
is forced to PLAYING, the deck comes from the snapshot, the hand-restore
loop runs, and if any step failed the game is re-initialized
(`deck.reset(); start_game()`); a failure of that `start_game` is caught by
the outer handler, which resets the deck and calls `start_game()` once
more — if that also fails the restore itself fails.  `c` is the variant's
`cards_per_hand` (or `_calculate_min_cards_needed() // players` when the
attribute is absent) and `minCards` its `_calculate_min_cards_needed()`. -/
def restoreGame (room : String) (rs : List RestoreIn) (snapDeck : List Card)
    (freshDeck : List Card) (c minCards : Nat) : Except String BaseGame :=
  let lr := restoreLoop c freshDeck rs snapDeck
  if lr.2.2 then .ok (restoreBase room lr.1 lr.2.1)
  else
    match (restoreBase room lr.1 freshDeck).start_game freshDeck minCards with
    | (.ok _, g') => .ok g'
    | (.error _, g') =>
      match ({ g' with deck := freshDeck } : BaseGame).start_game freshDeck minCards with
      | (.ok _, g'') => .ok g''
      | (.error e, _) => .error e

/-- A saved hand that the specification calls "missing, empty, or
malformed": no `hand` key, a non-list `hand`, or a list none of whose
well-formed entries yields a card (this covers the empty list and lists of
filtered-out junk; entries with invalid enum strings additionally clear the
validity flag). -/
def SavedHand.degenerate : SavedHand → Prop
  | .absent => True
  | .notList => True
  | .entries l => savedGood l = []

/-! ## Concrete states used by the claim theorems

Each is built by the engine's own operations from a fresh instance, with
`standardDeck` as the (identity-permutation) shuffle outcome. -/

/-- C1: a three-player Spoons game, started. -/
def spoonsC1Start : Except String Unit × SpoonsGame :=
  let s0 := SpoonsGame.new "R1" standardDeck
  let b1 := ((s0.base.add_player "p1" "Alice" true).add_player "p2" "Bob"
    false).add_player "p3" "Cara" false
  let s1 : SpoonsGame := { s0 with base := b1 }
  s1.start_game standardDeck

/-- C1: the started Spoons game. -/
def spoonsC1 : SpoonsGame := spoonsC1Start.2

/-- C1: the current player plays their first card. -/
def spoonsC1After : Except String Unit × SpoonsGame := spoonsC1.play_turn "p1" 0

/-- C2: a three-player Go Fish game, started. -/
def goFishC2Start : Except String Unit × BaseGame :=
  let s0 := GoFishGame.new "R2" standardDeck
  let b1 := ((s0.base.add_player "p1" "Alice" true).add_player "p2" "Bob"
    false).add_player "p3" "Cara" false
  b1.start_game standardDeck (goFishMinCards 3)

/-- C2: after two turns a player is removed, leaving
`current_player_idx = 2` over a two-player roster. -/
def goFishC2 : GoFishGame :=
  { GoFishGame.new "R2" standardDeck with
      base := (goFishC2Start.2.next_turn.next_turn.remove_player "p1") }

/-- C2 witness state: non-empty roster with an out-of-range turn index, on
which the base view body raises internally. -/
def baseC2w : BaseGame :=
  { room_code := "W", players := [{ id := "q1", name := "Q", hand := [] }],
    deck := [], state := .playing, current_player_idx := 1, direction := 1,
    max_selectable_cards := 0 }

/-- C3: a two-player base game, started with the default 7-card deal. -/
def baseC3Start : Except String Unit × BaseGame :=
  let b0 := ((BaseGame.new "R3" standardDeck).add_player "p1" "Alice"
    true).add_player "p2" "Bob" false
  b0.start_game standardDeck (baseMinCards 2)

/-- C3: the started two-player game. -/
def baseC3 : BaseGame := baseC3Start.2

/-- C4: a four-player Spades game, started. -/
def spadesC4Start : Except String Unit × SpadesGame :=
  let s0 := SpadesGame.new "R4" standardDeck
  let b1 := (((s0.base.add_player "p1" "Alice" true).add_player "p2" "Bob"
    false).add_player "p3" "Cara" false).add_player "p4" "Dan" false
  let s1 : SpadesGame := { s0 with base := b1 }
  s1.start_game standardDeck

/-- C4: the started Spades game. -/
def spadesC4 : SpadesGame := spadesC4Start.2

/-- C4: the current player attempts the opening bid. -/
def spadesC4Bid : Except String Unit × SpadesGame := spadesC4.make_bid "p1" 5

/-- C5: a two-player Kings Corner game, started. -/
def kingsCornerC5Start : Except String Unit × KingsCornerGame :=
  let k0 := KingsCornerGame.new "R5" standardDeck
  let b1 := (k0.base.add_player "p1" "Alice" true).add_player "p2" "Bob" false
  let k1 : KingsCornerGame := { k0 with base := b1 }
  k1.start_game standardDeck

/-- C6: a Go Fish position in PLAYING where the asker (current player)
holds A♠, the target holds A♥, and the deck holds A♦. -/
def goFishC6 : GoFishGame :=
  { base :=
      { room_code := "R6",
        players :=
          [{ id := "p1", name := "Alice", hand := [⟨.ace, .spades⟩],
             is_host := true },
           { id := "p2", name := "Bob", hand := [⟨.ace, .hearts⟩] }],
        deck := [⟨.ace, .diamonds⟩], state := .playing,
        current_player_idx := 0, direction := 1, max_selectable_cards := 0 },
    sets := [("p1", []), ("p2", [])], cards_per_hand := 7 }

/-- C6: the asker asks the target for rank `"A"`. -/
def goFishC6After : Except String Unit × GoFishGame :=
  goFishC6.ask_for_cards "p1" "p2" "A"

/-- C7: a two-player Snap game. -/
def snapC7 : SnapGame :=
  let s0 := SnapGame.new "R7" standardDeck
  { s0 with base :=
      (s0.base.add_player "p1" "Alice" true).add_player "p2" "Bob" false }

/-- C7: first start. -/
def snapC7a : Except String Unit × SnapGame := snapC7.start_game

/-- C7: re-entrant second start. -/
def snapC7b : Except String Unit × SnapGame := snapC7a.2.start_game

/-- C8: a three-player base game, started. -/
def baseC8Start : Except String Unit × BaseGame :=
  let b0 := (((BaseGame.new "R8" standardDeck).add_player "p1" "Alice"
    true).add_player "p2" "Bob" false).add_player "p3" "Cara" false
  b0.start_game standardDeck (baseMinCards 3)

/-- C8: two turns are taken (index 2), then a player leaves. -/
def baseC8 : BaseGame := baseC8Start.2.next_turn.next_turn.remove_player "p1"

/-- C9: the hand 10♥, J♥, Q♥. -/
def scatHandC9a : List Card :=
  [⟨.ten, .hearts⟩, ⟨.jack, .hearts⟩, ⟨.queen, .hearts⟩]

/-- C9: the mixed-suit hand 2♣, 3♦, 4♠. -/
def scatHandC9b : List Card :=
  [⟨.two, .clubs⟩, ⟨.three, .diamonds⟩, ⟨.four, .spades⟩]

/-- C10: a Go Fish snapshot (`cards_per_hand = 7`,
`_calculate_min_cards_needed() = 16` for two players) in which the first
player's saved hand is missing and the snapshot deck holds a single card —
too few for the per-player re-deal, which forces the whole-game
re-initialization path. -/
def restoreC10rs : List RestoreIn :=
  [{ id := "p1", name := "Alice", host := true, saved := .absent },
   { id := "p2", name := "Bob", host := false, saved := .entries
      [.good ⟨.ace, .hearts⟩, .good ⟨.two, .hearts⟩, .good ⟨.three, .hearts⟩,
       .good ⟨.four, .hearts⟩, .good ⟨.five, .hearts⟩, .good ⟨.six, .hearts⟩,
       .good ⟨.seven, .hearts⟩, .good ⟨.eight, .hearts⟩] }]

/-- C10: the restore run on that snapshot. -/
def restoreC10 : Except String BaseGame :=
  restoreGame "RA" restoreC10rs [⟨.two, .clubs⟩] standardDeck 7 16

/-- C10 witness snapshot: same degenerate first hand but an adequate
snapshot deck, exercising the per-player re-deal happy path. -/
def restoreC10wrs : List RestoreIn :=
  [{ id := "p1", name := "Alice", host := true, saved := .entries [.notCardDict] },
   { id := "p2", name := "Bob", host := false, saved := .entries
      [.good ⟨.ace, .hearts⟩, .good ⟨.two, .hearts⟩, .good ⟨.three, .hearts⟩,
       .good ⟨.four, .hearts⟩] }]

/-- C10 witness: restore with a 10-card snapshot deck and 4-card hands. -/
def restoreC10w : Except String BaseGame :=
  restoreGame "RB" restoreC10wrs (standardDeck.take 10) standardDeck 4 8

/-- C7 witness state: a fresh two-player game, hands still empty. -/
def baseC7w : BaseGame :=
  ((BaseGame.new "RC" standardDeck).add_player "p1" "Alice" true).add_player
    "p2" "Bob" false

/-- Base-engine states reachable through the removal-free exposed
operations: construction, `add_player`, `start_game` (either outcome, with
any variant-supplied minimum and any shuffle outcome), and `next_turn`. -/
inductive ReachNR : BaseGame → Prop where
  | init (room : String) (d : List Card) (h : d.Perm standardDeck) :
      ReachNR (BaseGame.new room d)
  | add {g : BaseGame} (pid userName : String) (host : Bool) :
      ReachNR g → ReachNR (g.add_player pid userName host)
  | start {g : BaseGame} (d : List Card) (m : Nat) (h : d.Perm standardDeck) :
      ReachNR g → ReachNR (g.start_game d m).2
  | next {g : BaseGame} : ReachNR g → ReachNR g.next_turn

/-! ## Claim theorems -/

/-- C1: `SpoonsGame.play_turn` is not atomic on failure.  In a started
three-player Spoons game, the current player's fully valid `play_turn`
call raises (the method invokes the nonexistent `self.get_next_player()`),
yet the acting player's hand has already lost the popped card: it shrinks
from 4 cards to 3 and the card is gone.  This contradicts the claim that a
failing action leaves the game state exactly as it was. -/
theorem C1_spoons_play_turn_mutates_before_failing :
    spoonsC1Start.1 = .ok () ∧
    spoonsC1.base.state = GameState.playing ∧
    (spoonsC1.base.getPlayer "p1").map (fun p => p.hand.length) = some 4 ∧
    spoonsC1After.1.isOk = false ∧
    (spoonsC1After.2.base.getPlayer "p1").map (fun p => p.hand.length) = some 3 ∧
    spoonsC1After.2 ≠ spoonsC1 := by
  decide

/-- C2 counterexample: `GoFishGame.get_game_state` raises on a state
reached by exposed operations.  After starting a three-player game,
advancing the turn twice (index 2) and removing a player, the base view
body hits `IndexError`, the base fallback returns an empty player map, and
the Go-Fish override's own hand-patching subscript raises `KeyError`,
which its handler re-raises as `ValueError` instead of returning a
fallback view. -/
theorem C2_gofish_get_game_state_raises :
    goFishC2Start.1 = .ok () ∧
    goFishC2.base.players.length = 2 ∧
    goFishC2.base.current_player_idx = 2 ∧
    (goFishC2.get_game_state (some "p2")).isOk = false := by
  decide

/-- C3 counterexample: the view with no target player does not hide hands.
In a started two-player game, the neutral view exposes player p2's full
7-card hand, whose first card carries its true rank `"Q"` and no opacity
flag at all (`show_back` key absent). -/
theorem C3_neutral_view_reveals_hands :
    baseC3Start.1 = .ok () ∧
    ((baseC3.get_game_state none).players.find? (fun q => q.1 = "p2")).map
        (fun q => q.2.hand.length) = some 7 ∧
    ((baseC3.get_game_state none).players.find? (fun q => q.1 = "p2")).map
        (fun q => q.2.hand.head?.map (fun cd => (cd.rank, cd.show_back))) =
      some (some ("Q", none)) := by
  decide

/-- C4: after a successful `SpadesGame.start_game` with exactly 4 players
the game is in PLAYING, not STARTING — the base start it delegates to ends
by setting PLAYING and nothing restores the bidding phase — so the current
player's legal opening bid of 5 is rejected with `Not in bidding phase`.
The bidding machinery (`make_bid`, and `_score_hand`'s return to STARTING
between hands) shows sequential bidding was intended to follow the start,
making the missing phase assignment a slip in the code. -/
theorem C4_spades_start_skips_bidding_phase :
    spadesC4Start.1 = .ok () ∧
    spadesC4.base.state = GameState.playing ∧
    spadesC4.base.state ≠ GameState.starting ∧
    (spadesC4.base.players.get? spadesC4.base.current_player_idx).map
      (fun p => p.id) = some "p1" ∧
    spadesC4.bids.all (fun e => e.2 = -1) = true ∧
    spadesC4Bid.1 = .error "Failed to make bid: Not in bidding phase" ∧
    spadesC4Bid.2 = spadesC4 := by
  decide

/-- C5: after starting a two-player Kings Corner game each player holds 9
cards, not 7 (`BaseGame.start_game` deals
`_calculate_min_cards_needed() // players = (7·2+4)//2 = 9` per player,
contradicting the class's own `cards_per_hand = 7`), and there are no
piles at all: the seeding method `_initialize_game_state` is never called
anywhere in the repository. -/
theorem C5_kings_corner_start_deals_9_and_no_piles :
    kingsCornerC5Start.1 = .ok () ∧
    kingsCornerC5Start.2.base.players.map (fun p => p.hand.length) = [9, 9] ∧
    kingsCornerC5Start.2.piles = [] ∧
    kingsCornerC5Start.2.pile_types = [] ∧
    kingsCornerC5Start.2.cards_per_hand = 7 := by
  decide

/-- C6: `GoFishGame.ask_for_cards` never transfers cards.  With the asker
(current player) holding A♠, the target holding A♥ and the deck holding
A♦, asking for rank `"A"` should — per the claim — transfer A♥ to the
asker without advancing the turn.  Instead, because every
`card.rank == rank` comparison is enum-vs-string (always `False`), the
code treats the asker as lacking the rank, draws A♦ from the deck, and
advances the turn even though the drawn card matches the requested rank. -/
theorem C6_gofish_ask_draws_instead_of_transferring :
    goFishC6After.1.isOk = true ∧
    (goFishC6After.2.base.getPlayer "p1").map (fun p => p.hand) =
      some [⟨.ace, .spades⟩, ⟨.ace, .diamonds⟩] ∧
    (goFishC6After.2.base.getPlayer "p2").map (fun p => p.hand) =
      some [⟨.ace, .hearts⟩] ∧
    goFishC6After.2.base.current_player_idx = 1 ∧
    goFishC6After.2.base.deck = [] ∧
    goFishC6After.2.sets = goFishC6.sets := by
  decide

/-- C7 counterexample: a second, re-entrant `SnapGame.start_game` breaks
the 52-card invariant.  Snap's start never resets the deck and its dealing
replaces each hand wholesale, so the second start discards the 8
previously dealt cards and deals 8 more from the depleted deck: the total
drops to 44. -/
theorem C7_reentrant_snap_start_loses_cards :
    snapC7a.1 = .ok () ∧ snapC7a.2.totalCards = 52 ∧
    snapC7b.1 = .ok () ∧ snapC7b.2.totalCards = 44 ∧
    snapC7b.2.totalCards ≠ 52 := by
  decide

/-- C8 counterexample: `remove_player` leaves `current_player_idx` out of
bounds.  Start a three-player game, advance the turn twice (index 2), then
remove a player: the roster has 2 entries but the index is still 2. -/
theorem C8_remove_player_leaves_index_out_of_bounds :
    baseC8Start.1 = .ok () ∧
    baseC8.players.length = 2 ∧
    baseC8.current_player_idx = 2 ∧
    ¬ baseC8.current_player_idx < baseC8.players.length := by
  decide

/-- C9 counterexample: the hand 10♥, J♥, Q♥ scores 30, not 31 — the three
cards are worth 10 each, so the single-suit sum is 30 and the 31 cap never
engages. -/
theorem C9_ten_jack_queen_scores_30 :
    ScatGame.calculate_hand_value scatHandC9a = 30 ∧
    ScatGame.calculate_hand_value scatHandC9a ≠ 31 := by
  decide

/-- C10 counterexample: a player with a missing saved hand is not always
re-dealt the variant's standard hand size.  Go Fish snapshot, two players,
`cards_per_hand = 7`: the snapshot deck holds one card (non-empty, so it
is not reset), the per-player re-deal of 7 cards fails, and the whole-game
re-initialization then deals `16 // 2 = 8` cards — the player ends with 8
cards, not the standard 7 (the restore does succeed). -/
theorem C10_redeal_size_not_standard :
    restoreC10rs.head?.map (fun r => r.saved) = some .absent ∧
    restoreC10.isOk = true ∧
    (restoreC10.toOption.bind (fun g =>
      (g.getPlayer "p1").map (fun p => p.hand.length))) = some 8 ∧
    (8 : Nat) ≠ 7 := by
  decide

/-- C2 (amended): the BASE view projection never raises — it returns the
normal view when the body succeeds (no `error` key), and on an internal
failure returns the minimal fallback document that keeps the schema (room
code, state string, player map, current player, deck count, direction,
turn index) and carries an `error` field.  (The Go-Fish override, by
contrast, re-raises view-construction failures — see the counterexample.) -/
theorem C2_base_view_never_raises (g : BaseGame) (viewer : Option String) :
    (g.get_game_state viewer).room_code = g.room_code ∧
    (g.get_game_state viewer).direction = g.direction ∧
    ((g.viewBody viewer).isOk = false →
      (g.get_game_state viewer).error.isSome = true ∧
      (g.get_game_state viewer).state = "waiting" ∧
      (g.get_game_state viewer).players = [] ∧
      (g.get_game_state viewer).current_player = none ∧
      (g.get_game_state viewer).deck_cards_remaining = 0 ∧
      (g.get_game_state viewer).current_player_idx = 0) ∧
    ((g.viewBody viewer).isOk = true → (g.get_game_state viewer).error = none) := by
  unfold BaseGame.get_game_state BaseGame.viewBody
  cases hc : g.currentPlayerE with
  | error e => simp [BaseGame.fallbackView, GameState.str, Except.isOk, Except.toBool]
  | ok cur => simp [Except.isOk, Except.toBool]

/-- C2 witness: a state whose view body fails internally (non-empty roster,
out-of-range index), on which the total projection indeed returns the
error-carrying fallback. -/
theorem C2_base_view_never_raises_witness :
    (baseC2w.viewBody none).isOk = false ∧
    (baseC2w.get_game_state none).error.isSome = true ∧
    (baseC2w.get_game_state none).players = [] := by
  refine ⟨by decide, ?_, ?_⟩
  · exact ((C2_base_view_never_raises baseC2w none).2.2.1 (by decide)).1
  · exact ((C2_base_view_never_raises baseC2w none).2.2.1 (by decide)).2.2.1

/-- C3 (amended): in a view requested for player X every card of every
hand carries the `show_back` flag, set exactly when the card belongs to a
player other than X (X's own cards are revealed, every foreign card is
flagged opaque); but a view requested with no target player does NOT hide
hands — every card appears with no opacity flag at all. -/
theorem C3_viewer_flags_foreign_cards (g : BaseGame) (v : String) :
    ((g.get_game_state (some v)).players.all (fun q =>
        q.2.hand.all (fun cd => cd.show_back == some (decide (q.1 ≠ v))))) = true ∧
    ((g.get_game_state none).players.all (fun q =>
        q.2.hand.all (fun cd => cd.show_back == none))) = true := by
  constructor
  · unfold BaseGame.get_game_state BaseGame.viewBody
    cases hc : g.currentPlayerE with
    | error e => simp [BaseGame.fallbackView]
    | ok cur =>
      simp only [List.all_eq_true]
      intro x hmem
      simp only [List.mem_map] at hmem
      obtain ⟨p, hp, rfl⟩ := hmem
      simp [Player.to_dict, List.all_eq_true, List.mem_map]
  · unfold BaseGame.get_game_state BaseGame.viewBody
    cases hc : g.currentPlayerE with
    | error e => simp [BaseGame.fallbackView]
    | ok cur =>
      simp only [List.all_eq_true]
      intro x hmem
      simp only [List.mem_map] at hmem
      obtain ⟨p, hp, rfl⟩ := hmem
      simp [Player.to_dict, List.all_eq_true, List.mem_map, Card.toDict]

/-- One dealing pass conserves the total card count (hands plus deck). -/
theorem dealPass_total (ps : List Player) (d : List Card) :
    ((dealPass ps d).1.map (fun p => p.hand.length)).sum
      + (dealPass ps d).2.length
      = (ps.map (fun p => p.hand.length)).sum + d.length := by
  induction ps generalizing d with
  | nil => simp [dealPass]
  | cons p t ih =>
    cases hd : d.getLast? with
    | none =>
      have := ih d
      simp only [dealPass, hd]
      simp only [List.map_cons, List.sum_cons]
      omega
    | some c =>
      have hne : d ≠ [] := by
        intro hnil; subst hnil; simp at hd
      have hlen : d.dropLast.length + 1 = d.length := by
        have h1 := List.length_dropLast d
        have h2 : 0 < d.length := List.length_pos.mpr hne
        omega
      have := ih d.dropLast
      simp only [dealPass, hd]
      simp only [List.map_cons, List.sum_cons, List.length_append,
        List.length_cons, List.length_nil]
      omega

/-- Round-robin dealing conserves the total card count. -/
theorem dealRounds_total (k : Nat) (ps : List Player) (d : List Card) :
    ((dealRounds k ps d).1.map (fun p => p.hand.length)).sum
      + (dealRounds k ps d).2.length
      = (ps.map (fun p => p.hand.length)).sum + d.length := by
  induction k generalizing ps d with
  | zero => simp [dealRounds]
  | succ n ih =>
    have h1 := dealPass_total ps d
    have h2 := ih (dealPass ps d).1 (dealPass ps d).2
    simp only [dealRounds]
    omega

/-- A successful `BaseGame.start_game` conserves cards: the cards in the
result's hands and deck total the fresh deck's 52 plus whatever was
already in the hands. -/
theorem start_game_total (g : BaseGame) (fresh : List Card) (m : Nat)
    (h : (g.start_game fresh m).1 = .ok ()) :
    ((g.start_game fresh m).2.players.map (fun p => p.hand.length)).sum
      + (g.start_game fresh m).2.deck.length
      = (g.players.map (fun p => p.hand.length)).sum + 52 := by
  by_cases h1 : g.players.length < 2
  · exfalso; simp [BaseGame.start_game, h1] at h
  · by_cases h2 : fresh.length ≠ 52
    · exfalso; simp [BaseGame.start_game, h1, h2] at h
    · by_cases h3 : fresh.length < m
      · exfalso; simp [BaseGame.start_game, h1, h2, h3] at h
      · cases hd : deal g.players (m / g.players.length) fresh with
        | error e =>
          exfalso; simp [BaseGame.start_game, h1, h2, h3, hd] at h
        | ok r =>
          have hr : r = dealRounds (m / g.players.length) g.players fresh := by
            unfold deal at hd
            split at hd
            · exact absurd hd (by simp)
            · injection hd with hd'; exact hd'.symm
          have h52 : fresh.length = 52 := by push_neg at h2; exact h2
          have hdr := dealRounds_total (m / g.players.length) g.players fresh
          rw [h52] at hdr
          rw [h52] at h3
          simp only [BaseGame.start_game, hd]
          simp [h1, h3, h52]
          rw [hr]
          omega

/-- Snap's hand-replacing deal loop: when all hands start empty, the cards
in the resulting hands and the remaining deck total the starting deck. -/
theorem snapDealLoop_total (c : Nat) (ps : List Player) (d : List Card)
    (hempty : ∀ p ∈ ps, p.hand = []) :
    ((snapDealLoop c ps d).1.map (fun p => p.hand.length)).sum
      + (snapDealLoop c ps d).2.length = d.length := by
  induction ps generalizing d with
  | nil => simp [snapDealLoop]
  | cons p t ih =>
    have hpe : p.hand = [] := hempty p (by simp)
    have hte : ∀ q ∈ t, q.hand = [] := fun q hq => hempty q (by simp [hq])
    cases hdm : drawMultiple c d with
    | error e =>
      have := ih d hte
      simp only [snapDealLoop, hdm]
      simp only [List.map_cons, List.sum_cons, hpe, List.length_nil]
      omega
    | ok h =>
      have hc : c ≤ d.length := by
        by_contra hgt
        push_neg at hgt
        simp [drawMultiple, hgt] at hdm
      have hg : ¬ c > d.length := by omega
      have hpair : h = (d.reverse.take c, d.take (d.length - c)) := by
        simp [drawMultiple, hg] at hdm
        exact hdm.symm
      have hlen1 : h.1.length = c := by
        rw [hpair]
        simp
        omega
      have hlen2 : h.2.length = d.length - c := by
        rw [hpair]
        simp
      have := ih h.2 hte
      simp only [snapDealLoop, hdm]
      simp only [List.map_cons, List.sum_cons]
      omega

/-- C7 (amended): the 52-card total invariant holds after the FIRST
successful `start_game` — for the base engine start used by the variants
(any variant minimum, any shuffle outcome, variant piles untouched and
empty at that point), and for Snap's own start from a fresh 52-card deck —
but a re-entrant second start breaks it, because previously dealt hands
are not returned to the deck (Snap discards and replaces them; see the
counterexample, where the total drops to 44). -/
theorem C7_first_start_total_is_52 :
    (∀ (g : BaseGame) (fresh : List Card) (m : Nat),
        (∀ p ∈ g.players, p.hand = []) →
        (g.start_game fresh m).1 = .ok () →
        ((g.start_game fresh m).2.players.map (fun p => p.hand.length)).sum
          + (g.start_game fresh m).2.deck.length = 52) ∧
    (∀ s : SnapGame,
        (∀ p ∈ s.base.players, p.hand = []) →
        s.base.deck.length = 52 → s.center_pile = [] →
        s.start_game.1 = .ok () → s.start_game.2.totalCards = 52) := by
  constructor
  · intro g fresh m hempty hok
    have htot := start_game_total g fresh m hok
    have hz : (g.players.map (fun p => p.hand.length)).sum = 0 := by
      apply List.sum_eq_zero
      intro x hx
      simp only [List.mem_map] at hx
      obtain ⟨p, hp, rfl⟩ := hx
      simp [hempty p hp]
    omega
  · intro s hempty hdeck hcenter hok
    by_cases hg : s.base.deck.length < s.base.players.length * s.cards_per_player
    · exfalso
      simp [SnapGame.start_game, SnapGame.deal_initial_cards, hg] at hok
    · have hloop :=
        snapDealLoop_total s.cards_per_player s.base.players s.base.deck hempty
      simp only [SnapGame.start_game, SnapGame.deal_initial_cards, hg,
        if_false, ite_false, SnapGame.totalCards]
      simp [hg, hcenter]
      omega

/-- C7 witness: a fresh two-player game with empty hands whose first start
succeeds and leaves exactly 52 cards across hands and deck. -/
theorem C7_first_start_total_is_52_witness :
    (baseC7w.start_game standardDeck 14).1 = .ok () ∧
    ((baseC7w.start_game standardDeck 14).2.players.map
        (fun p => p.hand.length)).sum
      + (baseC7w.start_game standardDeck 14).2.deck.length = 52 := by
  refine ⟨by decide, ?_⟩
  exact C7_first_start_total_is_52.1 baseC7w standardDeck 14 (by decide) (by decide)

/-- A dealing pass preserves the roster length. -/
theorem dealPass_players_length (ps : List Player) (d : List Card) :
    (dealPass ps d).1.length = ps.length := by
  induction ps generalizing d with
  | nil => simp [dealPass]
  | cons p t ih =>
    cases hd : d.getLast? with
    | none => simp [dealPass, hd, ih]
    | some c => simp [dealPass, hd, ih]

/-- Round-robin dealing preserves the roster length. -/
theorem dealRounds_players_length (k : Nat) (ps : List Player) (d : List Card) :
    (dealRounds k ps d).1.length = ps.length := by
  induction k generalizing ps d with
  | zero => simp [dealRounds]
  | succ n ih =>
    simp only [dealRounds]
    rw [ih, dealPass_players_length]

/-- Whatever the outcome of `BaseGame.start_game`, the resulting state
keeps the direction and the roster length, and its turn index is either
reset to 0 (success) or untouched (failure). -/
theorem start_game_shape (g : BaseGame) (fresh : List Card) (m : Nat) :
    (g.start_game fresh m).2.direction = g.direction ∧
    (g.start_game fresh m).2.players.length = g.players.length ∧
    ((g.start_game fresh m).2.current_player_idx = 0 ∨
      (g.start_game fresh m).2.current_player_idx = g.current_player_idx) := by
  by_cases h1 : g.players.length < 2
  · simp [BaseGame.start_game, h1]
  · by_cases h2 : fresh.length ≠ 52
    · simp [BaseGame.start_game, h1, h2]
    · by_cases h3 : fresh.length < m
      · simp [BaseGame.start_game, h1, h2, h3]
      · cases hd : deal g.players (m / g.players.length) fresh with
        | error e => simp [BaseGame.start_game, h1, h2, h3, hd]
        | ok r =>
          have hr : r = dealRounds (m / g.players.length) g.players fresh := by
            unfold deal at hd
            split at hd
            · exact absurd hd (by simp)
            · injection hd with hd'; exact hd'.symm
          simp [BaseGame.start_game, h1, h2, h3, hd, hr,
            dealRounds_players_length]

/-- With a non-empty roster and direction 1, `next_turn` computes the
Python result `(idx + 1) % len(players)`. -/
theorem next_turn_idx (g : BaseGame) (hdir : g.direction = 1)
    (hnz : g.players.length ≠ 0) :
    g.next_turn.current_player_idx
      = (g.current_player_idx + 1) % g.players.length := by
  unfold BaseGame.next_turn
  simp only [hnz, if_false, ite_false, hdir]
  have h1 : ((g.current_player_idx : Int) + 1) = ((g.current_player_idx + 1 : Nat) : Int) := by
    push_cast
    ring
  have h2 : ((g.current_player_idx + 1 : Nat) : Int).emod ((g.players.length : Nat) : Int)
      = (((g.current_player_idx + 1) % g.players.length : Nat) : Int) := by
    exact_mod_cast rfl
  rw [h1, h2]
  exact Int.toNat_natCast _

/-- Invariant of the removal-free reachable states: direction is 1 and the
turn index is 0 or in bounds. -/
theorem reachNR_invariant {g : BaseGame} (h : ReachNR g) :
    g.direction = 1 ∧
    (g.current_player_idx = 0 ∨ g.current_player_idx < g.players.length) := by
  induction h with
  | init room d hperm => simp [BaseGame.new]
  | @add g pid userName host hr ih =>
    obtain ⟨hdir, hidx⟩ := ih
    have hlen : g.players.length ≤ (g.add_player pid userName host).players.length := by
      simp only [BaseGame.add_player]
      split
      · simp
      · simp
    constructor
    · simpa [BaseGame.add_player] using hdir
    · have hidx2 : (g.add_player pid userName host).current_player_idx
          = g.current_player_idx := by
        simp [BaseGame.add_player]
      rw [hidx2]
      rcases hidx with h0 | hlt
      · exact Or.inl h0
      · exact Or.inr (by omega)
  | @start g d m hperm hr ih =>
    obtain ⟨hdir, hidx⟩ := ih
    obtain ⟨hsdir, hslen, hsidx⟩ := start_game_shape g d m
    refine ⟨by rw [hsdir, hdir], ?_⟩
    rcases hsidx with h0 | hkeep
    · exact Or.inl h0
    · rw [hkeep, hslen]
      exact hidx
  | @next g hr ih =>
    obtain ⟨hdir, hidx⟩ := ih
    by_cases hz : g.players.length = 0
    · unfold BaseGame.next_turn
      rw [if_pos hz]
      exact ⟨hdir, hidx⟩
    · have hpos : 0 < g.players.length := Nat.pos_of_ne_zero hz
      have hidx' := next_turn_idx g hdir hz
      have hdir' : g.next_turn.direction = g.direction := by
        unfold BaseGame.next_turn
        split <;> rfl
      have hlen' : g.next_turn.players.length = g.players.length := by
        unfold BaseGame.next_turn
        split <;> rfl
      refine ⟨by rw [hdir', hdir], Or.inr ?_⟩
      rw [hidx', hlen']
      exact Nat.mod_lt _ hpos

/-- C8 (amended): through the removal-free exposed operations
(construction, `add_player`, `start_game`, `next_turn`) the invariant
holds: with a non-empty roster, `current_player_idx` is a valid index, and
`next_turn` changes it whenever the player count exceeds 1.  But
`remove_player` never re-validates the index, so it can leave it out of
bounds (see the counterexample), and in the initial empty-roster state the
bound is vacuous. -/
theorem C8_index_invariant_without_removal {g : BaseGame} (h : ReachNR g) :
    (g.players ≠ [] → g.current_player_idx < g.players.length) ∧
    (1 < g.players.length →
      g.next_turn.current_player_idx ≠ g.current_player_idx) := by
  obtain ⟨hdir, hidx⟩ := reachNR_invariant h
  have hbound : g.players ≠ [] → g.current_player_idx < g.players.length := by
    intro hne
    have hpos : 0 < g.players.length := List.length_pos.mpr hne
    rcases hidx with h0 | hlt
    · omega
    · exact hlt
  refine ⟨hbound, ?_⟩
  intro h2
  have hne : g.players ≠ [] := by
    intro hnil
    rw [hnil] at h2
    simp at h2
  have hlt := hbound hne
  have hnz : g.players.length ≠ 0 := by omega
  rw [next_turn_idx g hdir hnz]
  rcases Nat.lt_or_ge (g.current_player_idx + 1) g.players.length with hlt2 | hge
  · rw [Nat.mod_eq_of_lt hlt2]
    omega
  · have heq : g.current_player_idx + 1 = g.players.length := by omega
    rw [heq, Nat.mod_self]
    omega

/-- C8 witness: a concrete removal-free reachable state (two players,
started, one turn taken) on which the index is in bounds and the next turn
changes it. -/
theorem C8_index_invariant_without_removal_witness :
    (baseC7w.start_game standardDeck 14).2.next_turn.current_player_idx <
      (baseC7w.start_game standardDeck 14).2.next_turn.players.length ∧
    (baseC7w.start_game standardDeck 14).2.next_turn.next_turn.current_player_idx ≠
      (baseC7w.start_game standardDeck 14).2.next_turn.current_player_idx := by
  have h := C8_index_invariant_without_removal
    (ReachNR.next (ReachNR.start standardDeck 14 (List.Perm.refl _)
      (ReachNR.add "p2" "Bob" false (ReachNR.add "p1" "Alice" true
        (ReachNR.init "RC" standardDeck (List.Perm.refl _))))))
  exact ⟨h.1 (by decide), h.2 (by decide)⟩

/-- A running maximum is bounded by `n` iff the seed and every value are. -/
theorem foldl_max_le_iff (l : List Suit) (f : Suit → Nat) (a n : Nat) :
    l.foldl (fun m s => max m (f s)) a ≤ n ↔ a ≤ n ∧ ∀ s ∈ l, f s ≤ n := by
  induction l generalizing a with
  | nil => simp
  | cons x t ih =>
    rw [List.foldl_cons, ih, Nat.max_le]
    constructor
    · rintro ⟨⟨ha, hx⟩, ht⟩
      refine ⟨ha, fun s hs => ?_⟩
      rcases List.mem_cons.mp hs with rfl | hs'
      · exact hx
      · exact ht s hs'
    · rintro ⟨ha, hall⟩
      exact ⟨⟨ha, hall x (by simp)⟩, fun s hs => hall s (by simp [hs])⟩

/-- Every listed value is at most the running maximum. -/
theorem le_foldl_max (l : List Suit) (f : Suit → Nat) (a : Nat) :
    ∀ s ∈ l, f s ≤ l.foldl (fun m s => max m (f s)) a :=
  ((foldl_max_le_iff l f a _).mp le_rfl).2

/-- The accumulator of the `handSuits` fold only ever grows. -/
theorem handSuits_acc_sub (hand : List Card) (acc : List Suit) :
    ∀ s ∈ acc,
      s ∈ hand.foldl
        (fun acc c => if acc.contains c.suit then acc else acc ++ [c.suit]) acc := by
  induction hand generalizing acc with
  | nil => simp
  | cons a t ih =>
    intro s hs
    rw [List.foldl_cons]
    apply ih
    split
    · exact hs
    · exact List.mem_append_left _ hs

/-- Every suit occurring in the hand occurs in `handSuits`. -/
theorem suit_mem_handSuits {hand : List Card} {c : Card} (hc : c ∈ hand) :
    c.suit ∈ handSuits hand := by
  unfold handSuits
  suffices h : ∀ acc,
      c.suit ∈ hand.foldl
        (fun acc c => if acc.contains c.suit then acc else acc ++ [c.suit]) acc by
    exact h []
  induction hand with
  | nil => cases hc
  | cons a t ih =>
    intro acc
    rcases List.mem_cons.mp hc with rfl | hc'
    · rw [List.foldl_cons]
      apply handSuits_acc_sub
      split
      · next hmem => exact List.elem_iff.mp hmem
      · simp
    · rw [List.foldl_cons]
      exact ih hc' _

/-- A suit absent from `handSuits` matches no card of the hand. -/
theorem filter_suit_eq_nil (hand : List Card) (s : Suit)
    (hs : s ∉ handSuits hand) :
    hand.filter (fun c => c.suit = s) = [] := by
  rw [List.filter_eq_nil_iff]
  intro c hc
  simp only [decide_eq_true_eq]
  intro hcs
  exact hs (hcs ▸ suit_mem_handSuits hc)

/-- Every suit is in the enum iteration order. -/
theorem mem_suit_all (s : Suit) : s ∈ Suit.all := by
  cases s <;> simp [Suit.all]

/-- C9 (amended): the Scat hand valuation computes exactly the best
single-suit sum (face cards 10, aces 11) capped at 31 — the first-clause
refinement against the specification's wording — and on the concrete
hands, 10♥+J♥+Q♥ scores 30 (not 31; the cap never engages) while the
mixed-suit 2♣,3♦,4♠ scores 4. -/
theorem C9_hand_value_refines_spec :
    (∀ hand, ScatGame.calculate_hand_value hand = specHandValue hand) ∧
    ScatGame.calculate_hand_value scatHandC9a = 30 ∧
    ScatGame.calculate_hand_value scatHandC9b = 4 := by
  refine ⟨?_, by decide, by decide⟩
  intro hand
  unfold ScatGame.calculate_hand_value specHandValue
  have hmap : ((handSuits hand).map
        (fun s => hand.filter (fun c => c.suit = s))).foldl
        (fun m grp => max m (sumValues grp)) 0
      = (handSuits hand).foldl
        (fun m s => max m (sumValues (hand.filter (fun c => c.suit = s)))) 0 := by
    rw [List.foldl_map]
  dsimp only
  rw [hmap]
  congr 1
  apply le_antisymm
  · exact (foldl_max_le_iff (handSuits hand)
        (fun s => sumValues (hand.filter (fun c => c.suit = s))) 0 _).mpr
      ⟨Nat.zero_le _, fun s _ =>
        le_foldl_max Suit.all
          (fun s => sumValues (hand.filter (fun c => c.suit = s))) 0 s
          (mem_suit_all s)⟩
  · refine (foldl_max_le_iff Suit.all
        (fun s => sumValues (hand.filter (fun c => c.suit = s))) 0 _).mpr
      ⟨Nat.zero_le _, fun s _ => ?_⟩
    by_cases hmem : s ∈ handSuits hand
    · exact le_foldl_max (handSuits hand)
        (fun s => sumValues (hand.filter (fun c => c.suit = s))) 0 s hmem
    · have hnil := filter_suit_eq_nil hand s hmem
      simp only [hnil]
      simp [sumValues]
/-- With enough cards, one dealing pass gives every player exactly one
more card and consumes one card per player. -/
theorem dealPass_lengths (ps : List Player) (d : List Card)
    (h : ps.length ≤ d.length) :
    (dealPass ps d).1.map (fun p => p.hand.length)
        = ps.map (fun p => p.hand.length + 1) ∧
      (dealPass ps d).2.length = d.length - ps.length := by
  induction ps generalizing d with
  | nil => simp [dealPass]
  | cons p t ih =>
    have hne : d ≠ [] := by
      intro hnil
      subst hnil
      simp at h
    cases hd : d.getLast? with
    | none =>
      exfalso
      apply hne
      cases d with
      | nil => rfl
      | cons x xs => simp at hd
    | some c =>
      have hpos : 0 < d.length := List.length_pos.mpr hne
      have hlen : d.dropLast.length = d.length - 1 := List.length_dropLast d
      have hih := ih d.dropLast (by simp at h ⊢; omega)
      simp only [dealPass, hd]
      constructor
      · simp only [List.map_cons, hih.1, List.length_append, List.length_cons,
          List.length_nil]
      · simp only [hih.2, hlen, List.length_cons]
        simp only [List.length_cons] at h
        omega

/-- With enough cards, `k` dealing rounds give every player exactly `k`
more cards. -/
theorem dealRounds_lengths (k : Nat) (ps : List Player) (d : List Card)
    (h : ps.length * k ≤ d.length) :
    (dealRounds k ps d).1.map (fun p => p.hand.length)
        = ps.map (fun p => p.hand.length + k) ∧
      (dealRounds k ps d).2.length = d.length - ps.length * k := by
  induction k generalizing ps d with
  | zero => simp [dealRounds]
  | succ n ih =>
    have hle : ps.length ≤ d.length := by
      have : ps.length * 1 ≤ ps.length * (n + 1) := by
        apply Nat.mul_le_mul_left
        omega
      omega
    have hp := dealPass_lengths ps d hle
    have hplen : (dealPass ps d).1.length = ps.length := by
      have := congrArg List.length hp.1
      simpa using this
    have hih := ih (dealPass ps d).1 (dealPass ps d).2 (by
      rw [hplen, hp.2]
      have : ps.length * (n + 1) = ps.length * n + ps.length := by ring
      omega)
    simp only [dealRounds]
    constructor
    · rw [hih.1]
      have hcomp : (dealPass ps d).1.map (fun p => p.hand.length + n)
          = ((dealPass ps d).1.map (fun p => p.hand.length)).map
              (fun x => x + n) := by
        rw [List.map_map]
        rfl
      rw [hcomp, hp.1, List.map_map]
      apply List.map_congr_left
      intro a _
      simp
      omega
    · rw [hih.2, hplen, hp.2]
      have : ps.length * (n + 1) = ps.length * n + ps.length := by ring
      omega

/-- Python `BaseGame.start_game` succeeds for a roster of at least 2 with a
52-card fresh deck and a minimum of at most 52, dealing every player
exactly `minCards // players` additional cards. -/
theorem start_game_ok_lengths (g : BaseGame) (fresh : List Card) (m : Nat)
    (h2 : 2 ≤ g.players.length) (hf : fresh.length = 52) (hm : m ≤ 52) :
    (g.start_game fresh m).1 = .ok () ∧
    (g.start_game fresh m).2.players.map (fun p => p.hand.length)
      = g.players.map (fun p => p.hand.length + m / g.players.length) := by
  have h1 : ¬ g.players.length < 2 := by omega
  have h3 : ¬ (52 : Nat) < m := by omega
  have hmul : m / g.players.length * g.players.length ≤ m :=
    Nat.div_mul_le_self m g.players.length
  have hguard : ¬ g.players.length * (m / g.players.length) > 52 := by
    rw [Nat.mul_comm]
    omega
  have hbound : g.players.length * (m / g.players.length) ≤ fresh.length := by
    rw [hf, Nat.mul_comm]
    omega
  have hdr := dealRounds_lengths (m / g.players.length) g.players fresh hbound
  constructor
  · simp [BaseGame.start_game, deal, h1, hf, h3, hguard]
  · simp only [BaseGame.start_game, deal]
    simp [h1, hf, h3, hguard, hdr.1]

/-- A successful `draw_multiple` drew exactly `count` cards. -/
theorem drawMultiple_ok_lengths (c : Nat) (d : List Card)
    (r : List Card × List Card) (h : drawMultiple c d = .ok r) :
    c ≤ d.length ∧ r.1.length = c ∧ r.2.length = d.length - c := by
  unfold drawMultiple at h
  split at h
  · exact absurd h (by simp)
  · next hng =>
    injection h with h'
    subst h'
    push_neg at hng
    refine ⟨hng, ?_, ?_⟩
    · simp
      omega
    · simp

/-- When one player's restore step keeps the validity flag, the player
ends with a non-empty hand, and with exactly `cards_per_hand` cards
whenever the saved hand was missing, empty, or malformed. -/
theorem restoreStep_ok (saved : SavedHand) (deck fresh : List Card) (c : Nat)
    (hc : 0 < c) (hok : (restoreStep saved deck fresh c).2.2 = true) :
    (restoreStep saved deck fresh c).1 ≠ [] ∧
    (saved.degenerate → (restoreStep saved deck fresh c).1.length = c) := by
  unfold restoreStep at hok ⊢
  cases saved with
  | absent =>
    simp only [List.isEmpty_nil, if_true, ite_true] at hok ⊢
    cases hdm : drawMultiple c (if deck.isEmpty then fresh else deck) with
    | ok rr =>
      obtain ⟨hle, h1, h2⟩ := drawMultiple_ok_lengths _ _ _ hdm
      simp only [hdm]
      constructor
      · intro hnil
        rw [← h1, hnil] at hc
        simp at hc
      · intro _
        exact h1
    | error e =>
      rw [hdm] at hok
      simp at hok
  | notList =>
    simp only [List.isEmpty_nil, if_true, ite_true] at hok ⊢
    cases hdm : drawMultiple c (if deck.isEmpty then fresh else deck) with
    | ok rr =>
      obtain ⟨hle, h1, h2⟩ := drawMultiple_ok_lengths _ _ _ hdm
      simp only [hdm]
      constructor
      · intro hnil
        rw [← h1, hnil] at hc
        simp at hc
      · intro _
        exact h1
    | error e =>
      rw [hdm] at hok
      simp at hok
  | entries l =>
    by_cases hbad : savedHasBad l
    · simp only [hbad, if_true, ite_true, List.isEmpty_nil] at hok ⊢
      cases hdm : drawMultiple c (if deck.isEmpty then fresh else deck) with
      | ok rr =>
        rw [hdm] at hok
        simp at hok
      | error e =>
        rw [hdm] at hok
        simp at hok
    · simp only [hbad, if_false, ite_false, Bool.false_eq_true] at hok ⊢
      by_cases hemp : (savedGood l).isEmpty
      · simp only [hemp, if_true, ite_true] at hok ⊢
        cases hdm : drawMultiple c (if deck.isEmpty then fresh else deck) with
        | ok rr =>
          obtain ⟨hle, h1, h2⟩ := drawMultiple_ok_lengths _ _ _ hdm
          simp only [hdm]
          constructor
          · intro hnil
            rw [← h1, hnil] at hc
            simp at hc
          · intro _
            exact h1
        | error e =>
          rw [hdm] at hok
          simp at hok
      · simp only [hemp, if_false, ite_false, Bool.false_eq_true] at hok ⊢
        constructor
        · intro hnil
          rw [hnil] at hemp
          simp at hemp
        · intro hdeg
          exfalso
          have : savedGood l = [] := hdeg
          rw [this] at hemp
          simp at hemp

/-- The hand-restore loop preserves the roster length, and when the
`all_hands_valid` flag survives, every restored player has a non-empty
hand, of exactly `cards_per_hand` cards when their saved hand was
degenerate. -/
theorem restoreLoop_ok (c : Nat) (fresh : List Card) (rs : List RestoreIn)
    (deck : List Card) (hc : 0 < c) :
    (restoreLoop c fresh rs deck).1.length = rs.length ∧
    ((restoreLoop c fresh rs deck).2.2 = true →
      List.Forall₂ (fun (r : RestoreIn) (p : Player) =>
        p.hand ≠ [] ∧ (r.saved.degenerate → p.hand.length = c))
        rs (restoreLoop c fresh rs deck).1) := by
  induction rs generalizing deck with
  | nil => simp [restoreLoop]
  | cons r t ih =>
    obtain ⟨ihlen, ihok⟩ := ih (restoreStep r.saved deck fresh c).2.1
    constructor
    · simp only [restoreLoop, List.length_cons, ihlen]
    · intro hflag
      simp only [restoreLoop] at hflag ⊢
      rw [Bool.and_eq_true] at hflag
      refine List.Forall₂.cons ?_ (ihok hflag.2)
      have hs := restoreStep_ok r.saved deck fresh c hc hflag.1
      exact ⟨hs.1, hs.2⟩

/-- A member of the right list of a `Forall₂` has a related member on the
left. -/
theorem forall₂_mem_right {α β : Type} {R : α → β → Prop} :
    ∀ {l1 : List α} {l2 : List β}, List.Forall₂ R l1 l2 →
      ∀ b ∈ l2, ∃ a ∈ l1, R a b := by
  intro l1 l2 h
  induction h with
  | nil =>
    intro b hb
    cases hb
  | @cons a b l1' l2' hR hF ih =>
    intro x hx
    rcases List.mem_cons.mp hx with rfl | hx'
    · exact ⟨a, by simp, hR⟩
    · obtain ⟨a', ha', hr⟩ := ih x hx'
      exact ⟨a', by simp [ha'], hr⟩

/-- C10 (amended): reconstructing an engine from a snapshot never fails
and never leaves a restored player with an empty hand, and a player whose
saved hand is missing, empty, or malformed is re-dealt exactly the
variant's `cards_per_hand` whenever the per-player re-deal path succeeds
(the `all_hands_valid` flag survives); when it cannot (deck non-empty but
too small, or an invalid enum in a saved card), the whole game is
re-initialized instead, which re-deals `min_cards // players` cards — not
necessarily the standard hand size (see the counterexample).  Hypotheses:
at least 2 roster entries, a hand size of at least 1, and the variant's
minimum within the 52-card deck, as for every shipped variant. -/
theorem C10_restore_redeal (room : String) (rs : List RestoreIn)
    (snapDeck fresh : List Card) (c minCards : Nat)
    (hc : 0 < c) (h2 : 2 ≤ rs.length) (hnm : rs.length ≤ minCards)
    (hm : minCards ≤ 52) (hf : fresh.length = 52) :
    ∃ g, restoreGame room rs snapDeck fresh c minCards = .ok g ∧
      (∀ p ∈ g.players, p.hand ≠ []) ∧
      ((restoreLoop c fresh rs snapDeck).2.2 = true →
        List.Forall₂ (fun (r : RestoreIn) (p : Player) =>
          r.saved.degenerate → p.hand.length = c) rs g.players) := by
  obtain ⟨hlen, hforall⟩ := restoreLoop_ok c fresh rs snapDeck hc
  unfold restoreGame
  by_cases hflag : (restoreLoop c fresh rs snapDeck).2.2 = true
  · simp only [hflag, if_true, ite_true]
    refine ⟨_, rfl, ?_, ?_⟩
    · intro p hp
      obtain ⟨r, _, hr⟩ := forall₂_mem_right (hforall hflag) p hp
      exact hr.1
    · intro _
      exact List.Forall₂.imp (fun a b hab => hab.2) (hforall hflag)
  · simp only [hflag, if_false, ite_false, Bool.false_eq_true]
    have hlen2 : 2 ≤ (restoreLoop c fresh rs snapDeck).1.length := by omega
    have hstart := start_game_ok_lengths
      (restoreBase room (restoreLoop c fresh rs snapDeck).1 fresh)
      fresh minCards hlen2 hf hm
    rcases hE : (restoreBase room (restoreLoop c fresh rs snapDeck).1
        fresh).start_game fresh minCards with ⟨a, b⟩
    rw [hE] at hstart
    obtain ⟨hok1, hmap1⟩ := hstart
    simp only at hok1 hmap1
    subst hok1
    refine ⟨b, ?_, ?_, ?_⟩
    · rfl
    · intro p hp
      have hplen : p.hand.length ∈ b.players.map (fun p => p.hand.length) :=
        List.mem_map_of_mem _ hp
      rw [hmap1] at hplen
      simp only [List.mem_map] at hplen
      obtain ⟨q, _, hq⟩ := hplen
      have hper : 1 ≤ minCards /
          (restoreBase room (restoreLoop c fresh rs snapDeck).1 fresh).players.length := by
        have hbl : (restoreBase room (restoreLoop c fresh rs snapDeck).1
            fresh).players.length = rs.length := by
          simp [restoreBase, hlen]
        rw [hbl]
        exact (Nat.one_le_div_iff (by omega)).mpr hnm
      have hpos : 0 < p.hand.length := by omega
      exact List.length_pos.mp hpos
    · intro hcontra
      exact hcontra.elim

/-- C10 witness: a two-player Go Fish-shaped snapshot (`cards_per_hand`
4 for the witness variant, minimum 8) whose first player's saved hand is
a list of junk entries: the restore succeeds, every player ends with a
non-empty hand, and the degenerate-hand player is re-dealt exactly 4
cards. -/
theorem C10_restore_redeal_witness :
    ∃ g, restoreGame "RB" restoreC10wrs (standardDeck.take 10) standardDeck
        4 8 = .ok g ∧
      (∀ p ∈ g.players, p.hand ≠ []) ∧
      ((restoreLoop 4 standardDeck restoreC10wrs
          (standardDeck.take 10)).2.2 = true →
        List.Forall₂ (fun (r : RestoreIn) (p : Player) =>
          r.saved.degenerate → p.hand.length = 4) restoreC10wrs g.players) :=
  C10_restore_redeal "RB" restoreC10wrs (standardDeck.take 10) standardDeck 4 8
    (by decide) (by decide) (by decide) (by decide) (by decide)
